import Mathlib

/-!
Shallow embedding of the deepagent-with-ollama repository core:
the streaming transcript relay (`DeepAgent.astream_chat` / `stream_chat`),
the blocking chat extraction (`DeepAgent.chat` / `achat`), the constructor's
tool-list assembly (`DeepAgent.__init__`), and the three tools
(`web_search`, `get_current_time`, `calculate`) from `core/tools.py`.

External effects (the langgraph runtime's snapshot stream, the DDGS search
call, the system clock, exceptions raised by the underlying iterators) are
modelled as explicit parameters: a fallible external call becomes an
`Except String` value, and the snapshot stream of one turn becomes the list
of chunks it delivers before completing or failing.
-/

namespace DeepAgentRepo

/-- A tool call carried by an AIMessage: tool name and its arguments as an
ordered mapping, values already rendered as text (the source interpolates
them with an f-string). -/
structure ToolCall where
  name : String
  args : List (String × String)
deriving DecidableEq, Repr

/-- Messages of the langchain history, as far as `agent.py` inspects them:
`ai` is an AIMessage (content plus `tool_calls`); `toolResult` is a message
with a set `name` attribute (a ToolMessage), which is how the source's
`hasattr(msg, 'name') ... and msg.name` probe recognises tool results;
`user` is any other message (no `name` set, not an AIMessage). -/
inductive Message where
  | user (content : String)
  | ai (content : String) (tool_calls : List ToolCall)
  | toolResult (name : String) (content : String)
deriving DecidableEq, Repr

/-- Display fragments yielded by the streaming relay, tagged by the yield
site that produced them in `astream_chat` / `stream_chat`. -/
inductive Fragment where
  | toolInvocation (text : String)
  | toolOutput (text : String)
  | content (text : String)
  | error (text : String)
deriving DecidableEq, Repr

/-- Embeds `", ".join([f"\x7bk\x7d=\x7bv\x7d" for k, v in tool_args.items()])`. -/
def renderArgs (args : List (String × String)) : String :=
  String.intercalate ", " (args.map (fun kv => kv.1 ++ "=" ++ kv.2))

/-- Embeds the tool-invocation yield:
`yield f"\n🔧 Using \x7btool_name\x7d(\x7bargs_str\x7d)\n"`. -/
def toolCallFragment (tc : ToolCall) : Fragment :=
  Fragment.toolInvocation ("\n🔧 Using " ++ tc.name ++ "(" ++ renderArgs tc.args ++ ")\n")

/-- Embeds the preview truncation:
`if tool_output and len(tool_output) > 100: tool_output = tool_output[:100] + "..."`. -/
def truncateOutput (s : String) : String :=
  if s ≠ "" ∧ 100 < s.length then s.take 100 ++ "..." else s

/-- Embeds the tool-result scan body: a message passes the
`hasattr(msg, 'name') and hasattr(msg, 'content') and msg.name` probe exactly
when it is a `toolResult` with a nonempty name, and then yields
`f"📤 \x7bmsg.name\x7d output: \x7btool_output\x7d\n"`. -/
def toolResultFragment (m : Message) : Option Fragment :=
  match m with
  | Message.toolResult nm c =>
      if nm ≠ "" then
        some (Fragment.toolOutput ("📤 " ++ nm ++ " output: " ++ truncateOutput c ++ "\n"))
      else none
  | _ => none

/-- Embeds the body of the `for chunk in ...stream(...)` loop of
`astream_chat` / `stream_chat` for one snapshot. A chunk is the `messages`
list of the snapshot (an absent or empty `messages` entry is the
`getLast? = none` case). Only a chunk whose last message is an AIMessage
produces fragments: first the tool-call announcements (gated by
`show_tools` and a nonempty `tool_calls`), then the tool-result scan over
the whole list (gated by `show_tools`), then the content yield (gated by
nonempty content). -/
def processChunk (show_tools : Bool) (chunk : List Message) : List Fragment :=
  match chunk.getLast? with
  | some (Message.ai c tcs) =>
      (if show_tools ∧ tcs ≠ [] then tcs.map toolCallFragment else [])
        ++ (if show_tools then chunk.filterMap toolResultFragment else [])
        ++ (if c ≠ "" then [Fragment.content c] else [])
  | _ => []

/-- Embeds `DeepAgent.astream_chat`: the runtime's async snapshot stream for
one turn is modelled by the chunks it delivers (`chunks`) and, when it
fails, the text of the exception raised after those chunks (`failure`).
The whole loop sits in a `try`; on an exception the function yields one
final `f"Error: \x7bstr(e)\x7d"` fragment and the generator ends. -/
def astream_chat (show_tools : Bool) (chunks : List (List Message))
    (failure : Option String) : List Fragment :=
  (chunks.map (processChunk show_tools)).flatten ++
    (match failure with
     | some e => [Fragment.error ("Error: " ++ e)]
     | none => [])

/-- Embeds `DeepAgent.stream_chat`, the synchronous twin of `astream_chat`;
its body is identical apart from `async for` versus `for`. -/
def stream_chat (show_tools : Bool) (chunks : List (List Message))
    (failure : Option String) : List Fragment :=
  (chunks.map (processChunk show_tools)).flatten ++
    (match failure with
     | some e => [Fragment.error ("Error: " ++ e)]
     | none => [])

/-- The fixed fallback text of `chat` / `achat`. -/
def placeholderResponse : String :=
  "I apologize, but I couldn't generate a proper response."

/-- Embeds `DeepAgent.chat`. The runtime call `self.agent.invoke(inputs)`
is modelled by its outcome: `Except.error e` when it raises (the `except`
branch returns `f"Error: \x7bstr(e)\x7d"`), otherwise an optional `messages`
list (`none` models a response without a `messages` key). The source
returns the final message's content only when the list is nonempty and its
last element is an AIMessage, and the placeholder otherwise. -/
def chat (result : Except String (Option (List Message))) : String :=
  match result with
  | Except.ok resp =>
      match resp with
      | some msgs =>
          match msgs.getLast? with
          | some (Message.ai c _) => c
          | _ => placeholderResponse
      | none => placeholderResponse
  | Except.error e => "Error: " ++ e

/-- Embeds `DeepAgent.achat`, whose body is identical to `chat` apart from
`await self.agent.ainvoke`. -/
def achat (result : Except String (Option (List Message))) : String :=
  match result with
  | Except.ok resp =>
      match resp with
      | some msgs =>
          match msgs.getLast? with
          | some (Message.ai c _) => c
          | _ => placeholderResponse
      | none => placeholderResponse
  | Except.error e => "Error: " ++ e

/-- Names of the three built-in tools, in the order of
`default_tools = [web_search, get_current_time, calculate]`. -/
def defaultToolNames : List String := ["web_search", "get_current_time", "calculate"]

/-- Embeds the constructor's tool assembly
`self.tools = default_tools + (tools or [])` from `DeepAgent.__init__`,
at the level of tool names (`none` models passing `tools=None`). The
constructor performs no further check on this list. -/
def initTools (tools : Option (List String)) : List String :=
  defaultToolNames ++ tools.getD []

/-! ## Tools (`core/tools.py`) -/

/-- A Python numeric value as produced by `eval` on the calculator's allowed
character set: either an `int` (arbitrary precision, as in Python) or a
`float`. Floats are modelled as exact rationals; every claim below exercises
only the `int` path, where this model is exact. -/
inductive PyVal where
  | int (n : Int)
  | float (q : Rat)
deriving DecidableEq, Repr

/-- Numeric value of a `PyVal`. -/
def PyVal.toRat : PyVal → Rat
  | PyVal.int n => (n : Rat)
  | PyVal.float q => q

/-- Python `+`: int when both operands are ints, float otherwise. -/
def addV : PyVal → PyVal → PyVal
  | PyVal.int a, PyVal.int b => PyVal.int (a + b)
  | a, b => PyVal.float (a.toRat + b.toRat)

/-- Python binary `-`. -/
def subV : PyVal → PyVal → PyVal
  | PyVal.int a, PyVal.int b => PyVal.int (a - b)
  | a, b => PyVal.float (a.toRat - b.toRat)

/-- Python `*`. -/
def mulV : PyVal → PyVal → PyVal
  | PyVal.int a, PyVal.int b => PyVal.int (a * b)
  | a, b => PyVal.float (a.toRat * b.toRat)

/-- Python `/` (true division): always a float; `none` models the
`ZeroDivisionError` raised on a zero divisor. -/
def divV (a b : PyVal) : Option PyVal :=
  if b.toRat = 0 then none else some (PyVal.float (a.toRat / b.toRat))

/-- Python unary `-`. -/
def negV : PyVal → PyVal
  | PyVal.int n => PyVal.int (-n)
  | PyVal.float q => PyVal.float (-q)

/-- Tokens of the arithmetic sublanguage reachable through the calculator's
character allowlist. -/
inductive Tok where
  | intTok (n : Nat)
  | floatTok (q : Rat)
  | plus | minus | star | slash | lparen | rparen | comma
deriving DecidableEq, Repr

/-- Numeric value of a digit string. -/
def digitsToNat (ds : List Char) : Nat :=
  ds.foldl (fun a c => a * 10 + (c.toNat - '0'.toNat)) 0

/-- Value of a fractional digit string (the part after the decimal point). -/
def fracToRat (ds : List Char) : Rat :=
  (digitsToNat ds : Rat) / ((10 : Rat) ^ ds.length)

/-- Lexer for the arithmetic sublanguage: spaces are skipped, the
single-character operators map to their tokens, and a maximal run
`digits ['.' digits]` lexes as an int or float literal (a bare `.` is a
lexical error). `fuel` bounds the recursion; each step consumes at least
one character, so `fuel = length` suffices. -/
def lexLoop : Nat → List Char → Option (List Tok)
  | _, [] => some []
  | 0, _ :: _ => none
  | fuel + 1, c :: cs =>
    if c = ' ' then lexLoop fuel cs
    else if c = '+' then (lexLoop fuel cs).map (fun ts => Tok.plus :: ts)
    else if c = '-' then (lexLoop fuel cs).map (fun ts => Tok.minus :: ts)
    else if c = '*' then (lexLoop fuel cs).map (fun ts => Tok.star :: ts)
    else if c = '/' then (lexLoop fuel cs).map (fun ts => Tok.slash :: ts)
    else if c = '(' then (lexLoop fuel cs).map (fun ts => Tok.lparen :: ts)
    else if c = ')' then (lexLoop fuel cs).map (fun ts => Tok.rparen :: ts)
    else if c = ',' then (lexLoop fuel cs).map (fun ts => Tok.comma :: ts)
    else if c.isDigit ∨ c = '.' then
      let ip := (c :: cs).takeWhile Char.isDigit
      match (c :: cs).dropWhile Char.isDigit with
      | '.' :: r2 =>
          let fp := r2.takeWhile Char.isDigit
          if ip.isEmpty ∧ fp.isEmpty then none
          else
            (lexLoop fuel (r2.dropWhile Char.isDigit)).map
              (fun ts => Tok.floatTok ((digitsToNat ip : Rat) + fracToRat fp) :: ts)
      | r1 =>
          (lexLoop fuel r1).map (fun ts => Tok.intTok (digitsToNat ip) :: ts)
    else none

/-- Lex a whole string. -/
def lex (s : String) : Option (List Tok) :=
  lexLoop s.length s.toList

mutual

/-- Parse a Python additive expression: `term (('+' | '-') term)*`. -/
def parseE : Nat → List Tok → Option (PyVal × List Tok)
  | 0, _ => none
  | fuel + 1, ts =>
    match parseT fuel ts with
    | some (v, ts1) => parseEMore fuel v ts1
    | none => none

/-- Fold the remaining `('+' | '-') term` steps, left-associatively. -/
def parseEMore : Nat → PyVal → List Tok → Option (PyVal × List Tok)
  | 0, _, _ => none
  | fuel + 1, v, Tok.plus :: ts =>
    match parseT fuel ts with
    | some (w, ts1) => parseEMore fuel (addV v w) ts1
    | none => none
  | fuel + 1, v, Tok.minus :: ts =>
    match parseT fuel ts with
    | some (w, ts1) => parseEMore fuel (subV v w) ts1
    | none => none
  | _ + 1, v, ts => some (v, ts)

/-- Parse a Python multiplicative term: `factor (('*' | '/') factor)*`. -/
def parseT : Nat → List Tok → Option (PyVal × List Tok)
  | 0, _ => none
  | fuel + 1, ts =>
    match parseF fuel ts with
    | some (v, ts1) => parseTMore fuel v ts1
    | none => none

/-- Fold the remaining `('*' | '/') factor` steps, left-associatively;
division by zero aborts the evaluation like Python's `ZeroDivisionError`. -/
def parseTMore : Nat → PyVal → List Tok → Option (PyVal × List Tok)
  | 0, _, _ => none
  | fuel + 1, v, Tok.star :: ts =>
    match parseF fuel ts with
    | some (w, ts1) => parseTMore fuel (mulV v w) ts1
    | none => none
  | fuel + 1, v, Tok.slash :: ts =>
    match parseF fuel ts with
    | some (w, ts1) =>
        match divV v w with
        | some u => parseTMore fuel u ts1
        | none => none
    | none => none
  | _ + 1, v, ts => some (v, ts)

/-- Parse a factor: unary `+`/`-` applied to a factor, a numeric literal,
or a parenthesised expression. -/
def parseF : Nat → List Tok → Option (PyVal × List Tok)
  | 0, _ => none
  | fuel + 1, Tok.plus :: ts => parseF fuel ts
  | fuel + 1, Tok.minus :: ts =>
    match parseF fuel ts with
    | some (v, ts1) => some (negV v, ts1)
    | none => none
  | _ + 1, Tok.intTok n :: ts => some (PyVal.int (n : Int), ts)
  | _ + 1, Tok.floatTok q :: ts => some (PyVal.float q, ts)
  | fuel + 1, Tok.lparen :: ts =>
    match parseE fuel ts with
    | some (v, Tok.rparen :: ts1) => some (v, ts1)
    | _ => none
  | _ + 1, _ => none

end

/-- Models Python's `eval` restricted to the arithmetic sublanguage the
calculator's allowlist admits: int and float literals, unary and binary
`+ -`, `* /` with Python precedence and true division, and parentheses.
A lexical or syntax error, a dangling suffix, tuple syntax (a comma — not
modelled, treated as a failure) or a division by zero is the `Except.error`
outcome, standing for the exception `eval` raises there. -/
def pyEvalE (s : String) : Except String PyVal :=
  match lex s with
  | none => Except.error "invalid syntax"
  | some ts =>
    match parseE (2 * ts.length + 2) ts with
    | some (v, []) => Except.ok v
    | _ => Except.error "invalid expression"

/-- Renders a result value the way Python's str() does in
`f"Result: \x7bresult\x7d"`: ints print exactly as in Python; floats whose
rational model is integral print with a trailing `.0`; other floats print
as fractions, an approximation of Python's float repr (no claim exercises
that path). -/
def showPyVal : PyVal → String
  | PyVal.int n => toString n
  | PyVal.float q => if q.den = 1 then toString q.num ++ ".0" else toString q

/-- The character allowlist of `calculate`:
`allowed_chars = set("0123456789+-*/()., ")`. -/
def allowedChars : List Char := "0123456789+-*/()., ".toList

/-- Embeds the `calculate` tool: reject the expression unless every
character is in the allowlist, otherwise evaluate it; an evaluation
failure is caught by the surrounding `try` and degraded to an error
string, so the tool always returns a string. -/
def calculate (expression : String) : String :=
  if expression.toList.all (fun c => c ∈ allowedChars) then
    match pyEvalE expression with
    | Except.ok result => "Result: " ++ showPyVal result
    | Except.error e => "Error calculating expression: " ++ e
  else
    "Error: Only basic mathematical operations are allowed"

/-- A raw DDGS search result: a dictionary whose four fields of interest
may be absent (`result.get(key, "")`). -/
structure RawSearchResult where
  title : Option String
  body : Option String
  href : Option String
  hostname : Option String
deriving DecidableEq, Repr

/-- A formatted result as built by `web_search`'s loop. -/
structure FormattedResult where
  title : String
  body : String
  href : String
  hostname : String
deriving DecidableEq, Repr

/-- Models `json.dumps` string escaping for the characters it always
escapes in practice here: backslash, double quote, and the common control
characters. -/
def jsonEscape (s : String) : String :=
  String.join (s.toList.map (fun c =>
    if c = '\\' then "\\\\"
    else if c = '"' then "\\\""
    else if c = '\n' then "\\n"
    else if c = '\t' then "\\t"
    else if c = '\r' then "\\r"
    else String.singleton c))

/-- Renders one formatted result as `json.dumps` with `indent=2` does,
inside the results array. -/
def jsonObj (r : FormattedResult) : String :=
  "  \x7b\n    \"title\": \"" ++ jsonEscape r.title
    ++ "\",\n    \"body\": \"" ++ jsonEscape r.body
    ++ "\",\n    \"href\": \"" ++ jsonEscape r.href
    ++ "\",\n    \"hostname\": \"" ++ jsonEscape r.hostname
    ++ "\"\n  \x7d"

/-- Models `json.dumps(formatted_results, indent=2)` on the list of
formatted results. -/
def jsonDumps (rs : List FormattedResult) : String :=
  match rs with
  | [] => "[]"
  | _ => "[\n" ++ String.intercalate ",\n" (rs.map jsonObj) ++ "\n]"

/-- Embeds the `web_search` tool. The external `DDGS().text(...)` call —
to which the query and the search options are forwarded — is modelled by
its outcome `ddgs`: either the list of raw results or the text of the
exception it raised. The whole body sits in a `try`, so a failure is
degraded to `f"Error performing web search: \x7bstr(e)\x7d"`. -/
def web_search (query : String) (max_results : Nat) (region : String)
    (safesearch : String) (time : Option String)
    (ddgs : Except String (List RawSearchResult)) : String :=
  match ddgs with
  | Except.ok results =>
      jsonDumps (results.map (fun r =>
        { title := r.title.getD "", body := r.body.getD "",
          href := r.href.getD "", hostname := r.hostname.getD "" }))
  | Except.error e => "Error performing web search: " ++ e

/-- Embeds the `get_current_time` tool. The clock reading
`datetime.now().strftime('%Y-%m-%d %H:%M:%S')` is modelled by `clock`,
where an `Except.error` outcome stands for an exception raised by the
clock call. The source body has no `try`/`except`, so a failure outcome
propagates unchanged instead of being converted to a result string. -/
def get_current_time (clock : Except String String) : Except String String :=
  match clock with
  | Except.ok now => Except.ok ("Current time: " ++ now)
  | Except.error e => Except.error e

/-! ## Observation helpers over fragment sequences -/

/-- The texts of the content fragments of a fragment sequence, in order. -/
def contentTexts (fs : List Fragment) : List String :=
  fs.filterMap (fun f =>
    match f with
    | Fragment.content t => some t
    | _ => none)

/-- Bool test for a tool-invocation fragment. -/
def isToolInvocation : Fragment → Bool
  | Fragment.toolInvocation _ => true
  | _ => false

/-- Bool test for a tool-output fragment. -/
def isToolOutput : Fragment → Bool
  | Fragment.toolOutput _ => true
  | _ => false

/-- Number of tool-invocation fragments in a fragment sequence. -/
def toolInvocationCount (fs : List Fragment) : Nat :=
  fs.countP isToolInvocation

/-- Number of tool-output fragments in a fragment sequence. -/
def toolOutputCount (fs : List Fragment) : Nat :=
  fs.countP isToolOutput

/-- Bool test for an AIMessage (`isinstance(final_message, AIMessage)`). -/
def Message.isAssistant : Message → Bool
  | Message.ai _ _ => true
  | _ => false

end DeepAgentRepo

open DeepAgentRepo

/-! ## Helper lemmas -/

theorem contentTexts_append (a b : List Fragment) :
    contentTexts (a ++ b) = contentTexts a ++ contentTexts b := by
  simp [contentTexts, List.filterMap_append]

theorem toolResultFragment_isToolOutput {m : Message} {f : Fragment}
    (h : toolResultFragment m = some f) : ∃ t, f = Fragment.toolOutput t := by
  cases m with
  | toolResult nm c =>
      by_cases hnm : nm = "" <;> simp [toolResultFragment, hnm] at h
      exact ⟨_, h.symm⟩
  | user c => simp [toolResultFragment] at h
  | ai c tcs => simp [toolResultFragment] at h

theorem contentTexts_toolCallFragments (tcs : List ToolCall) :
    contentTexts (tcs.map toolCallFragment) = [] := by
  simp [contentTexts, List.filterMap_map]
  intro tc _
  simp [toolCallFragment]

theorem contentTexts_toolResultScan (chunk : List Message) :
    contentTexts (chunk.filterMap toolResultFragment) = [] := by
  rw [contentTexts, List.filterMap_eq_nil_iff]
  intro f hf
  rw [List.mem_filterMap] at hf
  obtain ⟨m, _, hm⟩ := hf
  obtain ⟨t, rfl⟩ := toolResultFragment_isToolOutput hm
  rfl

theorem contentTexts_processChunk (show_tools : Bool) (chunk : List Message)
    {c : String} {tcs : List ToolCall}
    (h : chunk.getLast? = some (Message.ai c tcs)) :
    contentTexts (processChunk show_tools chunk) = if c ≠ "" then [c] else [] := by
  rw [processChunk, h]
  rw [contentTexts_append, contentTexts_append]
  have h1 : contentTexts
      (if show_tools ∧ tcs ≠ [] then tcs.map toolCallFragment else []) = [] := by
    split
    · exact contentTexts_toolCallFragments tcs
    · rfl
  have h2 : contentTexts
      (if show_tools then chunk.filterMap toolResultFragment else []) = [] := by
    split
    · exact contentTexts_toolResultScan chunk
    · rfl
  rw [h1, h2]
  by_cases hc : c = "" <;> simp [hc, contentTexts]

theorem contentTexts_processChunk_notAI (show_tools : Bool) (chunk : List Message)
    (h : ∀ c tcs, chunk.getLast? ≠ some (Message.ai c tcs)) :
    contentTexts (processChunk show_tools chunk) = [] := by
  rw [processChunk]
  cases hl : chunk.getLast? with
  | none => rfl
  | some m =>
      cases m with
      | ai c tcs => exact absurd hl (h c tcs)
      | user c => rfl
      | toolResult nm c => rfl

theorem astream_chat_cons (show_tools : Bool) (ch : List Message)
    (chunks : List (List Message)) (failure : Option String) :
    astream_chat show_tools (ch :: chunks) failure
      = processChunk show_tools ch ++ astream_chat show_tools chunks failure := by
  simp [astream_chat]

/-! ## Claim theorems -/

/-- C5: on a runtime failure mid-turn, `astream_chat` (and its synchronous
twin `stream_chat`) appends exactly one final error fragment carrying the
error text to the fragments already produced from the delivered snapshots
and then ends; the already-emitted fragments are preserved unchanged, and
no exception outcome exists — the result is always a plain fragment list. -/
theorem astream_chat_error_is_final_fragment (show_tools : Bool)
    (chunks : List (List Message)) (e : String) :
    astream_chat show_tools chunks (some e)
        = astream_chat show_tools chunks none ++ [Fragment.error ("Error: " ++ e)]
      ∧ stream_chat show_tools chunks (some e)
        = stream_chat show_tools chunks none ++ [Fragment.error ("Error: " ++ e)] := by
  constructor <;> simp [astream_chat, stream_chat]

/-- C3: with tool visibility disabled, every fragment `astream_chat` emits
is a content fragment or an error fragment — never a tool-invocation or
tool-output fragment. -/
theorem astream_chat_gating (chunks : List (List Message))
    (failure : Option String) (f : Fragment)
    (h : f ∈ astream_chat false chunks failure) :
    (∃ t, f = Fragment.content t) ∨ (∃ t, f = Fragment.error t) := by
  unfold astream_chat at h
  rw [List.mem_append] at h
  rcases h with h | h
  · rw [List.mem_flatten] at h
    obtain ⟨l, hl, hf⟩ := h
    rw [List.mem_map] at hl
    obtain ⟨ch, _, rfl⟩ := hl
    rw [processChunk] at hf
    cases hch : ch.getLast? with
    | none => rw [hch] at hf; cases hf
    | some m =>
        rw [hch] at hf
        cases m with
        | ai c tcs =>
            simp only [Bool.false_eq_true, false_and, if_false, if_neg,
              List.nil_append, ite_self] at hf
            by_cases hc : c = ""
            · simp [hc] at hf
            · simp [hc] at hf
              exact Or.inl ⟨c, hf⟩
        | user c => cases hf
        | toolResult nm c => cases hf
  · cases failure with
    | none => cases h
    | some e =>
        simp at h
        exact Or.inr ⟨_, h⟩

/-- Witness for C3 at a concrete snapshot sequence. -/
theorem astream_chat_gating_witness :
    Fragment.content "hi" ∈ astream_chat false [[Message.ai "hi" []]] none
      ∧ ((∃ t, Fragment.content "hi" = Fragment.content t)
          ∨ (∃ t, Fragment.content "hi" = Fragment.error t)) :=
  ⟨by decide, astream_chat_gating [[Message.ai "hi" []]] none _ (by decide)⟩

/-- C1 (counterexample): the claimed delta emission is false on the code.
For the growing snapshot contents "Hel" then "Hello", `astream_chat` emits
the full content at each snapshot — fragments "Hel" then "Hello", not
"Hel" then "lo" — and the concatenation of the emitted content fragments
is "HelHello", not the final content "Hello". -/
theorem astream_chat_no_delta_counterexample :
    contentTexts (astream_chat false
        [[Message.ai "Hel" []], [Message.ai "Hello" []]] none) = ["Hel", "Hello"]
      ∧ contentTexts (astream_chat false
        [[Message.ai "Hel" []], [Message.ai "Hello" []]] none) ≠ ["Hel", "lo"]
      ∧ String.join (contentTexts (astream_chat false
        [[Message.ai "Hel" []], [Message.ai "Hello" []]] none)) ≠ "Hello" := by
  decide

/-- C1 (amended): `astream_chat` keeps no emitted-length counter and
re-emits the entire current content at every snapshot. For any snapshot
sequence whose snapshots each end in an AssistantMessage with contents
`cs` in order, the emitted content fragments are exactly the nonempty
entries of `cs`, whole, in order — so snapshots "Hel" then "Hello" yield
fragments "Hel" then "Hello". -/
theorem astream_chat_reemits_full_content (show_tools : Bool)
    (chunks : List (List Message)) (cs : List String)
    (h : List.Forall₂
      (fun ch c => ∃ tcs, ch.getLast? = some (Message.ai c tcs)) chunks cs) :
    contentTexts (astream_chat show_tools chunks none)
      = cs.filter (fun c => decide (c ≠ "")) := by
  induction h with
  | nil => simp [astream_chat, contentTexts]
  | cons hrel htail ih =>
      obtain ⟨tcs, hlast⟩ := hrel
      rw [astream_chat_cons, contentTexts_append, ih,
        contentTexts_processChunk show_tools _ hlast]
      rename_i ch c chs cs'
      by_cases hc : c = "" <;> simp [hc, List.filter_cons]

/-- Witness for the amended C1 at the Scenario B snapshots. -/
theorem astream_chat_reemits_full_content_witness :
    contentTexts (astream_chat false
        [[Message.ai "Hel" []], [Message.ai "Hello" []]] none) = ["Hel", "Hello"] := by
  have h := astream_chat_reemits_full_content false
      [[Message.ai "Hel" []], [Message.ai "Hello" []]] ["Hel", "Hello"]
      (List.Forall₂.cons ⟨[], rfl⟩ (List.Forall₂.cons ⟨[], rfl⟩ List.Forall₂.nil))
  exact h.trans (by decide)

/-- C2 (counterexample): `astream_chat` keeps no record of announced tool
calls or tool results. A single distinct ToolCall re-included in two
snapshots is announced twice, and a single distinct ToolResultMessage
re-included in two snapshots is announced twice — not at most once. -/
theorem astream_chat_reannounce_counterexample :
    toolInvocationCount (astream_chat true
        [[Message.ai "" [⟨"web_search", [("query", "lean")]⟩]],
         [Message.ai "" [⟨"web_search", [("query", "lean")]⟩]]] none) = 2
      ∧ toolOutputCount (astream_chat true
        [[Message.toolResult "web_search" "out", Message.ai "a" []],
         [Message.toolResult "web_search" "out", Message.ai "ab" []]] none) = 2 := by
  decide

theorem toolInvocationCount_processChunk_true (ch : List Message) :
    toolInvocationCount (processChunk true ch)
      = (match ch.getLast? with
         | some (Message.ai _ tcs) => tcs.length
         | _ => 0) := by
  rw [processChunk]
  cases hl : ch.getLast? with
  | none => rfl
  | some m =>
      cases m with
      | ai c tcs =>
          rw [toolInvocationCount, List.countP_append, List.countP_append]
          have h1 : (if (true : Bool) ∧ tcs ≠ [] then tcs.map toolCallFragment
              else []).countP isToolInvocation = tcs.length := by
            split
            · rw [List.countP_map]
              rw [List.countP_eq_length]
              intro tc _
              rfl
            · rename_i hni
              have : tcs = [] := by
                by_contra hne
                exact hni ⟨rfl, hne⟩
              simp [this]
          have h2 : (if (true : Bool) then ch.filterMap toolResultFragment
              else []).countP isToolInvocation = 0 := by
            rw [if_pos rfl, List.countP_eq_zero]
            intro f hf
            rw [List.mem_filterMap] at hf
            obtain ⟨m, _, hm⟩ := hf
            obtain ⟨t, rfl⟩ := toolResultFragment_isToolOutput hm
            simp [isToolInvocation]
          have h3 : (if c ≠ "" then [Fragment.content c]
              else []).countP isToolInvocation = 0 := by
            split <;> rfl
          rw [h1, h2, h3]
          simp
      | user c => rfl
      | toolResult nm c => rfl

theorem toolOutputCount_processChunk_true (ch : List Message) :
    toolOutputCount (processChunk true ch)
      = (match ch.getLast? with
         | some (Message.ai _ _) => (ch.filterMap toolResultFragment).length
         | _ => 0) := by
  rw [processChunk]
  cases hl : ch.getLast? with
  | none => rfl
  | some m =>
      cases m with
      | ai c tcs =>
          rw [toolOutputCount, List.countP_append, List.countP_append]
          have h1 : (if (true : Bool) ∧ tcs ≠ [] then tcs.map toolCallFragment
              else []).countP isToolOutput = 0 := by
            split
            · rw [List.countP_map]
              rw [List.countP_eq_zero]
              intro tc _
              simp [toolCallFragment, isToolOutput]
            · rfl
          have h2 : (if (true : Bool) then ch.filterMap toolResultFragment
              else []).countP isToolOutput = (ch.filterMap toolResultFragment).length := by
            rw [if_pos rfl, List.countP_eq_length]
            intro f hf
            rw [List.mem_filterMap] at hf
            obtain ⟨m, _, hm⟩ := hf
            obtain ⟨t, rfl⟩ := toolResultFragment_isToolOutput hm
            rfl
          have h3 : (if c ≠ "" then [Fragment.content c]
              else []).countP isToolOutput = 0 := by
            split <;> rfl
          rw [h1, h2, h3]
          simp
      | user c => rfl
      | toolResult nm c => rfl

/-- C2 (amended): `astream_chat` announces per snapshot, not per turn.
With tool visibility enabled, the number of tool-invocation fragments of a
turn is the sum, over the snapshots whose last message is an
AssistantMessage, of the number of tool calls that message carries at that
snapshot, and the number of tool-output fragments is the sum, over those
snapshots, of the number of tool-result messages the snapshot contains —
so a ToolCall or ToolResultMessage re-included in k such snapshots is
announced k times, not at most once. -/
theorem astream_chat_per_snapshot_announcements (chunks : List (List Message)) :
    toolInvocationCount (astream_chat true chunks none)
      = (chunks.map (fun ch =>
          match ch.getLast? with
          | some (Message.ai _ tcs) => tcs.length
          | _ => 0)).sum
      ∧ toolOutputCount (astream_chat true chunks none)
      = (chunks.map (fun ch =>
          match ch.getLast? with
          | some (Message.ai _ _) => (ch.filterMap toolResultFragment).length
          | _ => 0)).sum := by
  induction chunks with
  | nil => constructor <;> rfl
  | cons ch chs ih =>
      constructor
      · rw [astream_chat_cons, toolInvocationCount, List.countP_append,
          ← toolInvocationCount, ← toolInvocationCount, ih.1,
          toolInvocationCount_processChunk_true, List.map_cons, List.sum_cons]
      · rw [astream_chat_cons, toolOutputCount, List.countP_append,
          ← toolOutputCount, ← toolOutputCount, ih.2,
          toolOutputCount_processChunk_true, List.map_cons, List.sum_cons]

/-- C4: with tool visibility enabled, the tool-output fragment shows the
output truncated to its first 100 characters followed by the "..." marker
when the output is longer than 100 characters, and unmodified otherwise. -/
theorem astream_chat_truncates_tool_output (nm s : String) (h : nm ≠ "") :
    astream_chat true [[Message.toolResult nm s, Message.ai "c" []]] none
      = [Fragment.toolOutput ("📤 " ++ nm ++ " output: "
            ++ (if 100 < s.length then s.take 100 ++ "..." else s) ++ "\n"),
         Fragment.content "c"] := by
  by_cases hs : s = ""
  · subst hs
    simp [astream_chat, processChunk, toolResultFragment, truncateOutput, h,
      List.getLast?]
  · by_cases hl : 100 < s.length
    · simp [astream_chat, processChunk, toolResultFragment, truncateOutput, h,
        hs, hl, List.getLast?]
    · simp [astream_chat, processChunk, toolResultFragment, truncateOutput, h,
        hs, hl, List.getLast?]

set_option maxRecDepth 8192 in
/-- Witness for C4: an output of 250 copies of 'a' renders as its first 100
characters plus the marker; an output of 80 copies renders unmodified. -/
theorem astream_chat_truncates_tool_output_witness :
    astream_chat true
        [[Message.toolResult "calc" (String.mk (List.replicate 250 'a')),
          Message.ai "c" []]] none
      = [Fragment.toolOutput ("📤 calc output: "
            ++ String.mk (List.replicate 100 'a') ++ "..." ++ "\n"),
         Fragment.content "c"]
      ∧ astream_chat true
        [[Message.toolResult "calc" (String.mk (List.replicate 80 'a')),
          Message.ai "c" []]] none
      = [Fragment.toolOutput ("📤 calc output: "
            ++ String.mk (List.replicate 80 'a') ++ "\n"),
         Fragment.content "c"] := by
  constructor
  · exact (astream_chat_truncates_tool_output "calc" _ (by decide)).trans (by decide)
  · exact (astream_chat_truncates_tool_output "calc" _ (by decide)).trans (by decide)

/-- C6: the calculator evaluates "2 + 2 * 3" to 8 (with Python operator
precedence), and any input containing a character outside the allowlist
`0-9 + - * / ( ) . , space` is rejected with the fixed rejection message,
without being evaluated. -/
theorem calculate_scenario_and_allowlist :
    calculate "2 + 2 * 3" = "Result: 8"
      ∧ ∀ s : String, (∃ c ∈ s.toList, c ∉ allowedChars) →
          calculate s = "Error: Only basic mathematical operations are allowed" := by
  refine ⟨by decide, ?_⟩
  rintro s ⟨c, hc, hnc⟩
  rw [calculate, if_neg]
  intro hall
  rw [List.all_eq_true] at hall
  have := hall c hc
  simp only [decide_eq_true_eq] at this
  exact hnc this

/-- Witness for C6 at the input "import os". -/
theorem calculate_allowlist_witness :
    ('i' ∈ "import os".toList ∧ 'i' ∉ allowedChars)
      ∧ calculate "import os" = "Error: Only basic mathematical operations are allowed" :=
  ⟨by decide, calculate_scenario_and_allowlist.2 "import os" ⟨'i', by decide, by decide⟩⟩

/-- C7 (counterexample): the constructor performs no tool-name uniqueness
check. With an extension tool named "calculate" — colliding with the
built-in calculator — construction succeeds and produces the combined
tool list, which contains the name twice; no ConfigurationError exists. -/
theorem initTools_collision_counterexample :
    initTools (some ["calculate"])
        = ["web_search", "get_current_time", "calculate", "calculate"]
      ∧ ¬ (initTools (some ["calculate"])).Nodup := by
  decide

/-- C7 (amended): the constructor simply concatenates the built-in tools
and the caller-supplied extensions without any uniqueness check, so a
colliding extension name is accepted and the constructed tool list is not
duplicate-free. -/
theorem initTools_no_uniqueness_check (ext : List String) (n : String)
    (h1 : n ∈ ext) (h2 : n ∈ defaultToolNames) :
    initTools (some ext) = defaultToolNames ++ ext
      ∧ ¬ (initTools (some ext)).Nodup := by
  refine ⟨rfl, ?_⟩
  intro hnd
  rw [initTools] at hnd
  simp only [Option.getD_some] at hnd
  rw [List.nodup_append] at hnd
  exact hnd.2.2 h2 h1

/-- Witness for the amended C7 at the extension name "calculate". -/
theorem initTools_no_uniqueness_check_witness :
    ("calculate" ∈ ["calculate"] ∧ "calculate" ∈ defaultToolNames)
      ∧ initTools (some ["calculate"]) = defaultToolNames ++ ["calculate"]
      ∧ ¬ (initTools (some ["calculate"])).Nodup :=
  ⟨by decide, initTools_no_uniqueness_check ["calculate"] "calculate"
    (by decide) (by decide)⟩

/-- C8 (counterexample): `get_current_time` has no exception handler, so a
failure of the clock call inside the tool escapes unconverted instead of
being turned into a textual error result: no result string is produced. -/
theorem get_current_time_propagates_counterexample :
    get_current_time (Except.error "clock unavailable")
        = Except.error "clock unavailable"
      ∧ (get_current_time (Except.error "clock unavailable")).toOption = none := by
  exact ⟨rfl, rfl⟩

/-- C8 (amended): `web_search` and `calculate` catch every failure at the
tool boundary and degrade it to a textual error-string result —
`web_search` maps a failing search call to its error string, and
`calculate` always returns one of its three result/error strings — but
`get_current_time` has no handler: a successful clock reading is formatted,
while a clock failure propagates unchanged. -/
theorem tool_boundary_behaviour :
    (∀ (q : String) (mr : Nat) (rg ss : String) (t : Option String) (e : String),
        web_search q mr rg ss t (Except.error e)
          = "Error performing web search: " ++ e)
      ∧ (∀ expression : String,
          (∃ v, calculate expression = "Result: " ++ v)
            ∨ (∃ e, calculate expression = "Error calculating expression: " ++ e)
            ∨ calculate expression
                = "Error: Only basic mathematical operations are allowed")
      ∧ (∀ t, get_current_time (Except.ok t) = Except.ok ("Current time: " ++ t))
      ∧ (∀ e, get_current_time (Except.error e) = Except.error e) := by
  refine ⟨fun _ _ _ _ _ _ => rfl, ?_, fun _ => rfl, fun _ => rfl⟩
  intro expression
  rw [calculate]
  split
  · cases hv : pyEvalE expression with
    | ok v => exact Or.inl ⟨showPyVal v, rfl⟩
    | error e => exact Or.inr (Or.inl ⟨e, rfl⟩)
  · exact Or.inr (Or.inr rfl)

/-- C9: a snapshot sequence whose snapshots' last AssistantMessages all
have empty content yields zero content fragments, and with visibility
enabled it yields only tool-invocation and tool-output fragments — no
placeholder and no error; a snapshot whose last message is an
AssistantMessage with empty content and no tool calls produces no fragment
at all. -/
theorem astream_chat_empty_content (show_tools : Bool)
    (chunks : List (List Message))
    (h : ∀ ch ∈ chunks, ∀ c tcs, ch.getLast? = some (Message.ai c tcs) → c = "") :
    contentTexts (astream_chat show_tools chunks none) = []
      ∧ (∀ f ∈ astream_chat true chunks none,
          (∃ t, f = Fragment.toolInvocation t) ∨ (∃ t, f = Fragment.toolOutput t))
      ∧ astream_chat show_tools [[Message.ai "" []]] none = [] := by
  refine ⟨?_, ?_, ?_⟩
  · induction chunks with
    | nil => simp [astream_chat, contentTexts]
    | cons ch chs ih =>
        rw [astream_chat_cons, contentTexts_append]
        have hch : contentTexts (processChunk show_tools ch) = [] := by
          cases hl : ch.getLast? with
          | none =>
              apply contentTexts_processChunk_notAI
              intro c tcs heq
              rw [hl] at heq
              cases heq
          | some m =>
              cases m with
              | ai c tcs =>
                  have hc : c = "" := h ch (List.mem_cons_self ch chs) c tcs hl
                  rw [contentTexts_processChunk show_tools ch hl]
                  simp [hc]
              | user c =>
                  apply contentTexts_processChunk_notAI
                  intro c' tcs' heq
                  rw [hl] at heq
                  cases heq
              | toolResult nm c =>
                  apply contentTexts_processChunk_notAI
                  intro c' tcs' heq
                  rw [hl] at heq
                  cases heq
        rw [hch, ih (fun ch' hch' => h ch' (List.mem_cons_of_mem ch hch'))]
        rfl
  · intro f hf
    unfold astream_chat at hf
    rw [List.mem_append] at hf
    rcases hf with hf | hf
    · rw [List.mem_flatten] at hf
      obtain ⟨l, hl, hfl⟩ := hf
      rw [List.mem_map] at hl
      obtain ⟨ch, hch, rfl⟩ := hl
      rw [processChunk] at hfl
      cases hlast : ch.getLast? with
      | none => rw [hlast] at hfl; cases hfl
      | some m =>
          rw [hlast] at hfl
          cases m with
          | ai c tcs =>
              have hc : c = "" := h ch hch c tcs hlast
              subst hc
              simp only [ne_eq, not_true_eq_false, if_false, List.append_nil,
                ite_self] at hfl
              rw [List.mem_append] at hfl
              rcases hfl with hfl | hfl
              · split at hfl
                · rw [List.mem_map] at hfl
                  obtain ⟨tc, _, rfl⟩ := hfl
                  exact Or.inl ⟨_, rfl⟩
                · cases hfl
              · split at hfl
                · rw [List.mem_filterMap] at hfl
                  obtain ⟨m, _, hm⟩ := hfl
                  obtain ⟨t, rfl⟩ := toolResultFragment_isToolOutput hm
                  exact Or.inr ⟨t, rfl⟩
                · cases hfl
          | user c => cases hfl
          | toolResult nm c => cases hfl
    · cases hf
  · cases show_tools <;> decide

/-- Witness for C9 at a tool-only snapshot and at an empty snapshot. -/
theorem astream_chat_empty_content_witness :
    contentTexts (astream_chat true
        [[Message.toolResult "t" "o",
          Message.ai "" [⟨"web_search", [("query", "x")]⟩]]] none) = []
      ∧ astream_chat true [[Message.ai "" []]] none = [] := by
  have h := astream_chat_empty_content true
      [[Message.toolResult "t" "o",
        Message.ai "" [⟨"web_search", [("query", "x")]⟩]]]
      (by
        intro ch hch c tcs heq
        simp only [List.mem_singleton] at hch
        subst hch
        simp [List.getLast?] at heq
        exact heq.1.symm)
  exact ⟨h.1, h.2.2⟩

/-- C10: on the blocking path, a runtime response with no `messages`
entry, an empty message list, or a final message that is not an
AssistantMessage makes both `chat` and `achat` return the fixed
placeholder string; otherwise both return exactly the final
AssistantMessage's content. -/
theorem chat_placeholder_fallback (resp : Option (List Message)) :
    ((resp = none ∨ resp = some [] ∨
        (∃ msgs m, resp = some msgs ∧ msgs.getLast? = some m
          ∧ m.isAssistant = false)) →
      chat (Except.ok resp) = placeholderResponse
        ∧ achat (Except.ok resp) = placeholderResponse)
      ∧ (∀ msgs c tcs, resp = some msgs
          → msgs.getLast? = some (Message.ai c tcs)
          → chat (Except.ok resp) = c ∧ achat (Except.ok resp) = c) := by
  constructor
  · intro h
    rcases h with rfl | rfl | ⟨msgs, m, rfl, hl, hna⟩
    · exact ⟨rfl, rfl⟩
    · exact ⟨rfl, rfl⟩
    · cases m with
      | ai c tcs => simp [Message.isAssistant] at hna
      | user c => constructor <;> simp [chat, achat, hl]
      | toolResult nm c => constructor <;> simp [chat, achat, hl]
  · intro msgs c tcs hr hl
    subst hr
    constructor <;> simp [chat, achat, hl]

/-- Witness for C10: a final non-assistant message yields the placeholder;
a final AssistantMessage yields its content. -/
theorem chat_placeholder_fallback_witness :
    (chat (Except.ok (some [Message.user "hi"])) = placeholderResponse
        ∧ achat (Except.ok (some [Message.user "hi"])) = placeholderResponse)
      ∧ chat (Except.ok (some [Message.ai "fine" []])) = "fine"
      ∧ achat (Except.ok (some [Message.ai "fine" []])) = "fine" :=
  ⟨(chat_placeholder_fallback (some [Message.user "hi"])).1
      (Or.inr (Or.inr ⟨[Message.user "hi"], Message.user "hi", rfl, rfl, rfl⟩)),
   (chat_placeholder_fallback (some [Message.ai "fine" []])).2
      [Message.ai "fine" []] "fine" [] rfl rfl⟩
